import Mathlib

/-!
Formal model of the reward-accrual and vesting-accounting arithmetic of the
`polygon-toolkit` repository: `StakingContract.sol` (stake / withdraw /
claimRewards with a lazily settled annual-rate reward) and
`VestingContract.sol` (cliff + linear vesting schedules with claim,
claimAll and revocation).

Addresses are modelled as natural numbers (`0` is the null address), token
amounts and timestamps as natural numbers, and the `mapping` storage slots
as association lists whose lookup returns the all-zero default record, as a
Solidity mapping does.  Each state-changing entry point is a function
returning `Except` of an error or the successor state; the EVM's
revert-on-failure semantics is the `run…` wrapper that restores the prior
state on any error.  The `SafeERC20` token collaborator is modelled by a
boolean success oracle plus a log of the transfers performed.
-/

/-- `PRECISION` of `StakingContract.sol` (1e18 = 100%). -/
def PRECISION : Nat := 10 ^ 18

/-- `SECONDS_PER_YEAR` of `StakingContract.sol` (`365 days`). -/
def SECONDS_PER_YEAR : Nat := 365 * 24 * 60 * 60

/-- The staking / vesting contract's own address (`address(this)`), chosen
outside the 160-bit range used for participant addresses. -/
def addrThis : Nat := 2 ^ 160

/-- One `VestingSchedule` record of `VestingContract.sol`.  The all-zero
record (in particular `beneficiary = 0`) is the mapping default standing
for an absent schedule. -/
structure VSchedule where
  beneficiary : Nat
  totalAmount : Nat
  claimedAmount : Nat
  startTime : Nat
  cliffDuration : Nat
  vestingDuration : Nat
  revoked : Bool
deriving DecidableEq

/-- The mapping default: an empty `VestingSchedule` slot. -/
def VSchedule.empty : VSchedule :=
  ⟨0, 0, 0, 0, 0, 0, false⟩

/-- `getVestedAmount` of `VestingContract.sol`, as a function of the
schedule record and the current time (`block.timestamp`): zero before the
schedule exists, before `startTime` or before the cliff; `totalAmount`
once `elapsed ≥ vestingDuration`; otherwise the linear interpolation
`totalAmount * elapsed / vestingDuration` with floor division. -/
def getVestedAmountS (s : VSchedule) (now : Nat) : Nat :=
  if s.beneficiary = 0 then 0
  else if now < s.startTime then 0
  else if now < s.startTime + s.cliffDuration then 0
  else if s.vestingDuration ≤ now - s.startTime then s.totalAmount
  else s.totalAmount * (now - s.startTime) / s.vestingDuration

/-- `getClaimableAmount` of `VestingContract.sol` on a schedule record:
zero for an absent or revoked schedule, otherwise the vested amount in
excess of `claimedAmount`. -/
def getClaimableAmountS (s : VSchedule) (now : Nat) : Nat :=
  if s.beneficiary = 0 ∨ s.revoked then 0
  else
    let vested := getVestedAmountS s now
    if s.claimedAmount < vested then vested - s.claimedAmount else 0

/-- One token movement performed through the `SafeERC20` collaborator:
source holder, destination holder, amount. -/
structure TokenMove where
  src : Nat
  dst : Nat
  amt : Nat
deriving DecidableEq

/-- `StakeData` of `StakingContract.sol`: staked amount, reward debt,
last accrual timestamp, and the lock expiry (0 = no lock). -/
structure StakeData where
  amount : Nat
  rewardDebt : Nat
  lastUpdateTime : Nat
  lockUntil : Nat
deriving DecidableEq

/-- The mapping default: an empty `StakeData` slot. -/
def StakeData.empty : StakeData :=
  ⟨0, 0, 0, 0⟩

/-- Typed errors of `StakingContract.sol`, plus `transferFailed` for a
declined `SafeERC20` movement (which reverts the transaction). -/
inductive StakeErr where
  | zeroAmount
  | insufficientBalance
  | tokensLocked (lockUntil : Nat)
  | invalidRewardRate
  | transferFailed
deriving DecidableEq

/-- Contract-level storage of `StakingContract.sol`.  The `stakes` mapping
is an association list keyed by participant address; `log` records the
token movements performed so far. -/
structure StakingState where
  rewardRate : Nat
  lockPeriod : Nat
  totalStaked : Nat
  totalRewardsDistributed : Nat
  stakes : List (Nat × StakeData)
  log : List TokenMove
deriving DecidableEq

/-- Mapping lookup with the Solidity all-zero default. -/
def lookupStake : List (Nat × StakeData) → Nat → StakeData
  | [], _ => StakeData.empty
  | (b, d) :: rest, a => if a = b then d else lookupStake rest a

/-- Mapping store: overwrite the slot for `a`, appending it if absent. -/
def storeStake : List (Nat × StakeData) → Nat → StakeData → List (Nat × StakeData)
  | [], a, d => [(a, d)]
  | (b, e) :: rest, a, d =>
      if a = b then (b, d) :: rest else (b, e) :: storeStake rest a d

/-- The reward formula of `_calculatePendingReward` /
`_calculateRewardDebt` (line 294 / 317):
`amount * rewardRate * elapsed / (PRECISION * SECONDS_PER_YEAR)`,
full-precision multiplication before a single floor division. -/
def accrualReward (amount rate elapsed : Nat) : Nat :=
  amount * rate * elapsed / (PRECISION * SECONDS_PER_YEAR)

/-- `_calculatePendingReward` of `StakingContract.sol`. -/
def calculatePendingReward (σ : StakingState) (user now : Nat) : Nat :=
  let s := lookupStake σ.stakes user
  if s.amount = 0 ∨ σ.rewardRate = 0 then 0
  else
    let timeElapsed := now - s.lastUpdateTime
    if timeElapsed = 0 then 0
    else accrualReward s.amount σ.rewardRate timeElapsed

/-- `_calculateRewardDebt` of `StakingContract.sol`: the stored
`rewardDebt` plus the reward accrued since `lastUpdateTime` (0 when the
stake or the rate is zero). -/
def calculateRewardDebt (σ : StakingState) (user now : Nat) : Nat :=
  let s := lookupStake σ.stakes user
  if s.amount = 0 ∨ σ.rewardRate = 0 then 0
  else
    let timeElapsed := now - s.lastUpdateTime
    if timeElapsed = 0 then s.rewardDebt
    else s.rewardDebt + accrualReward s.amount σ.rewardRate timeElapsed

/-- `_updateRewards` of `StakingContract.sol`: for a nonzero stake,
checkpoint `rewardDebt` to `_calculateRewardDebt` and `lastUpdateTime`
to `now`. -/
def updateRewards (σ : StakingState) (user now : Nat) : StakingState :=
  let s := lookupStake σ.stakes user
  if s.amount > 0 then
    { σ with stakes := (storeStake σ.stakes user
        { s with rewardDebt := calculateRewardDebt σ user now,
                 lastUpdateTime := now }) }
  else σ

/-- `stake` of `StakingContract.sol`: reject a zero amount, settle
rewards, pull `amount` from the participant (the boolean oracle `ok`
decides whether the collaborator accepts; a declined transfer reverts),
then increase the principal, refresh `lastUpdateTime`, extend (never
shorten) the lock when a lock period is configured, and increase
`totalStaked`. -/
def stake (σ : StakingState) (user amount now : Nat) (ok : Bool) :
    Except StakeErr StakingState :=
  if amount = 0 then .error .zeroAmount
  else
    let σ₁ := updateRewards σ user now
    if !ok then .error .transferFailed
    else
      let σ₂ := { σ₁ with log := σ₁.log ++ [TokenMove.mk user addrThis amount] }
      let s := lookupStake σ₂.stakes user
      let s₁ := { s with amount := s.amount + amount, lastUpdateTime := now }
      let s₂ :=
        if σ₂.lockPeriod > 0 then
          if now + σ₂.lockPeriod > s₁.lockUntil then
            { s₁ with lockUntil := now + σ₂.lockPeriod }
          else s₁
        else s₁
      .ok { σ₂ with stakes := storeStake σ₂.stakes user s₂,
                    totalStaked := σ₂.totalStaked + amount }

/-- `withdraw` of `StakingContract.sol`: reject a zero amount, an amount
above the principal, or a withdrawal inside the lock window; otherwise
settle rewards, decrease the principal and `totalStaked`, and push the
tokens back to the participant. -/
def withdraw (σ : StakingState) (user amount now : Nat) (ok : Bool) :
    Except StakeErr StakingState :=
  if amount = 0 then .error .zeroAmount
  else
    let s₀ := lookupStake σ.stakes user
    if s₀.amount < amount then .error .insufficientBalance
    else if s₀.lockUntil > 0 ∧ now < s₀.lockUntil then
      .error (.tokensLocked s₀.lockUntil)
    else
      let σ₁ := updateRewards σ user now
      let s := lookupStake σ₁.stakes user
      let σ₂ := { σ₁ with
        stakes := storeStake σ₁.stakes user { s with amount := s.amount - amount },
        totalStaked := σ₁.totalStaked - amount }
      if !ok then .error .transferFailed
      else .ok { σ₂ with log := σ₂.log ++ [TokenMove.mk addrThis user amount] }

/-- `claimRewards` of `StakingContract.sol`: a no-op for a zero stake or
zero pending reward; otherwise set `rewardDebt := _calculateRewardDebt`,
refresh `lastUpdateTime`, add the pending reward to
`totalRewardsDistributed`, and transfer it to the participant. -/
def claimRewards (σ : StakingState) (user now : Nat) (ok : Bool) :
    Except StakeErr StakingState :=
  let s := lookupStake σ.stakes user
  if s.amount = 0 then .ok σ
  else
    let pendingReward := calculatePendingReward σ user now
    if pendingReward > 0 then
      let σ₁ := { σ with
        stakes := (storeStake σ.stakes user
          { s with rewardDebt := calculateRewardDebt σ user now,
                   lastUpdateTime := now }),
        totalRewardsDistributed := σ.totalRewardsDistributed + pendingReward }
      if !ok then .error .transferFailed
      else .ok { σ₁ with log := σ₁.log ++ [TokenMove.mk addrThis user pendingReward] }
    else .ok σ

/-- `setRewardRate` of `StakingContract.sol` (owner-only admin entry):
rejects any rate above `PRECISION` (100%). -/
def setRewardRate (σ : StakingState) (newRate : Nat) :
    Except StakeErr StakingState :=
  if newRate > PRECISION then .error .invalidRewardRate
  else .ok { σ with rewardRate := newRate }

/-- The constructor of `StakingContract.sol`: requires both token
addresses to be nonzero and stores `_rewardRate` and `_lockPeriod`
unchecked. -/
def constructStaking (stakingToken rewardToken _rewardRate _lockPeriod : Nat) :
    Option StakingState :=
  if stakingToken = 0 then none
  else if rewardToken = 0 then none
  else some
    { rewardRate := _rewardRate, lockPeriod := _lockPeriod,
      totalStaked := 0, totalRewardsDistributed := 0, stakes := [], log := [] }

/-- Typed errors of `VestingContract.sol`; `notBeneficiary` models the
string revert `"VestingContract: not beneficiary"`, `scheduleExists` the
`require` guarding id collisions, `notOwner` the `onlyOwner` modifier,
and `transferFailed` a declined `SafeERC20` movement. -/
inductive VestErr where
  | invalidVestingParameters
  | zeroAmount
  | vestingNotFound
  | vestingAlreadyRevoked
  | nothingToClaim
  | notBeneficiary
  | notOwner
  | scheduleExists
  | transferFailed
deriving DecidableEq

/-- Contract-level storage of `VestingContract.sol`: the schedule mapping
(keyed by the schedule id, modelled as a natural number standing for the
`bytes32` hash), the per-beneficiary id lists, the three global counters,
the contract owner, and the log of token movements. -/
structure VestingState where
  owner : Nat
  schedules : List (Nat × VSchedule)
  beneficiarySchedules : List (Nat × List Nat)
  vestingScheduleCount : Nat
  totalVestedAmount : Nat
  totalClaimedAmount : Nat
  log : List TokenMove
deriving DecidableEq

/-- Schedule-mapping lookup with the Solidity all-zero default. -/
def lookupSched : List (Nat × VSchedule) → Nat → VSchedule
  | [], _ => VSchedule.empty
  | (b, d) :: rest, a => if a = b then d else lookupSched rest a

/-- Schedule-mapping store: overwrite the slot for `a`, appending it if
absent. -/
def storeSched : List (Nat × VSchedule) → Nat → VSchedule → List (Nat × VSchedule)
  | [], a, d => [(a, d)]
  | (b, e) :: rest, a, d =>
      if a = b then (b, d) :: rest else (b, e) :: storeSched rest a d

/-- `beneficiarySchedules` lookup with the empty-array default. -/
def lookupBene : List (Nat × List Nat) → Nat → List Nat
  | [], _ => []
  | (b, d) :: rest, a => if a = b then d else lookupBene rest a

/-- `beneficiarySchedules` store. -/
def storeBene : List (Nat × List Nat) → Nat → List Nat → List (Nat × List Nat)
  | [], a, d => [(a, d)]
  | (b, e) :: rest, a, d =>
      if a = b then (b, d) :: rest else (b, e) :: storeBene rest a d

/-- State-level `getVestedAmount` of `VestingContract.sol`. -/
def getVestedAmount (σ : VestingState) (scheduleId now : Nat) : Nat :=
  getVestedAmountS (lookupSched σ.schedules scheduleId) now

/-- State-level `getClaimableAmount` of `VestingContract.sol`. -/
def getClaimableAmount (σ : VestingState) (scheduleId now : Nat) : Nat :=
  getClaimableAmountS (lookupSched σ.schedules scheduleId) now

/-- `createVesting` of `VestingContract.sol`.  The `keccak256` derivation
of the schedule id from the parameters, `block.timestamp` and
`vestingScheduleCount` is modelled by taking the id as an explicit
argument; the `require` that the id is not yet in use is kept.  Caller
must be the owner (`onlyOwner`); a `startTime` of 0 means `now`; the
escrow transfer pulls `totalAmount` from the caller. -/
def createVesting (σ : VestingState)
    (caller scheduleId beneficiary totalAmount startTime cliffDuration
     vestingDuration now : Nat) (ok : Bool) : Except VestErr VestingState :=
  if caller ≠ σ.owner then .error .notOwner
  else if beneficiary = 0 then .error .invalidVestingParameters
  else if totalAmount = 0 then .error .zeroAmount
  else if vestingDuration = 0 then .error .invalidVestingParameters
  else if vestingDuration < cliffDuration then .error .invalidVestingParameters
  else
    let startTime' := if startTime = 0 then now else startTime
    if (lookupSched σ.schedules scheduleId).beneficiary ≠ 0 then
      .error .scheduleExists
    else
      let σ₁ := { σ with
        schedules := (storeSched σ.schedules scheduleId
          ⟨beneficiary, totalAmount, 0, startTime', cliffDuration,
           vestingDuration, false⟩),
        beneficiarySchedules := (storeBene σ.beneficiarySchedules beneficiary
          (lookupBene σ.beneficiarySchedules beneficiary ++ [scheduleId])),
        vestingScheduleCount := σ.vestingScheduleCount + 1,
        totalVestedAmount := σ.totalVestedAmount + totalAmount }
      if !ok then .error .transferFailed
      else .ok { σ₁ with log := σ₁.log ++ [TokenMove.mk caller addrThis totalAmount] }

/-- `claim` of `VestingContract.sol`: unknown id, revoked schedule,
non-beneficiary caller and zero claimable are rejected in that order;
otherwise `claimedAmount` and `totalClaimedAmount` grow by the claimable
amount, which is transferred to the beneficiary. -/
def claim (σ : VestingState) (scheduleId caller now : Nat) (ok : Bool) :
    Except VestErr VestingState :=
  let s := lookupSched σ.schedules scheduleId
  if s.beneficiary = 0 then .error .vestingNotFound
  else if s.revoked then .error .vestingAlreadyRevoked
  else if caller ≠ s.beneficiary then .error .notBeneficiary
  else
    let claimableAmount := getClaimableAmountS s now
    if claimableAmount = 0 then .error .nothingToClaim
    else
      let σ₁ := { σ with
        schedules := (storeSched σ.schedules scheduleId
          { s with claimedAmount := s.claimedAmount + claimableAmount }),
        totalClaimedAmount := σ.totalClaimedAmount + claimableAmount }
      if !ok then .error .transferFailed
      else .ok { σ₁ with
        log := σ₁.log ++ [TokenMove.mk addrThis s.beneficiary claimableAmount] }

/-- The loop body of `claimAll`: walk the caller's schedule ids, and for
each non-revoked schedule owned by the caller with positive claimable
amount, add the claimable amount to its `claimedAmount` and to the
running total.  Returns the updated schedule mapping and the total. -/
def claimAllLoop (caller now : Nat) :
    List Nat → List (Nat × VSchedule) → List (Nat × VSchedule) × Nat
  | [], scheds => (scheds, 0)
  | scheduleId :: rest, scheds =>
      let s := lookupSched scheds scheduleId
      if s.beneficiary = caller ∧ s.revoked = false then
        let claimable := getClaimableAmountS s now
        if claimable > 0 then
          let next := claimAllLoop caller now rest
            (storeSched scheds scheduleId
              { s with claimedAmount := s.claimedAmount + claimable })
          (next.1, claimable + next.2)
        else claimAllLoop caller now rest scheds
      else claimAllLoop caller now rest scheds

/-- `claimAll` of `VestingContract.sol`: aggregate the claimable amounts
over the caller's schedules (revoked or empty ones silently skipped),
fail with `NothingToClaim` only when the total is zero, and perform one
aggregate transfer. -/
def claimAll (σ : VestingState) (caller now : Nat) (ok : Bool) :
    Except VestErr VestingState :=
  let r := claimAllLoop caller now (lookupBene σ.beneficiarySchedules caller)
    σ.schedules
  if r.2 = 0 then .error .nothingToClaim
  else
    let σ₁ := { σ with
      schedules := r.1,
      totalClaimedAmount := σ.totalClaimedAmount + r.2 }
    if !ok then .error .transferFailed
    else .ok { σ₁ with log := σ₁.log ++ [TokenMove.mk addrThis caller r.2] }

/-- `revokeVesting` of `VestingContract.sol` (owner only): mark the
schedule revoked, and return the unvested remainder
`totalAmount - getVestedAmount(scheduleId)` to the owner (no transfer
when it is zero). -/
def revokeVesting (σ : VestingState) (scheduleId caller now : Nat) (ok : Bool) :
    Except VestErr VestingState :=
  if caller ≠ σ.owner then .error .notOwner
  else
    let s := lookupSched σ.schedules scheduleId
    if s.beneficiary = 0 then .error .vestingNotFound
    else if s.revoked then .error .vestingAlreadyRevoked
    else
      let s₁ := { s with revoked := true }
      let σ₁ := { σ with schedules := storeSched σ.schedules scheduleId s₁ }
      let vestedAmount := getVestedAmountS s₁ now
      let unvestedAmount := s.totalAmount - vestedAmount
      if unvestedAmount > 0 then
        if !ok then .error .transferFailed
        else .ok { σ₁ with
          log := σ₁.log ++ [TokenMove.mk addrThis σ.owner unvestedAmount] }
      else .ok σ₁

/-- The constructor of `VestingContract.sol` plus the `Ownable` owner:
requires a nonzero token address; all storage starts empty. -/
def constructVesting (vestingToken owner : Nat) : Option VestingState :=
  if vestingToken = 0 then none
  else some
    { owner := owner, schedules := [], beneficiarySchedules := [],
      vestingScheduleCount := 0, totalVestedAmount := 0,
      totalClaimedAmount := 0, log := [] }

/-- EVM transaction semantics: a reverted call leaves the storage as it
was before the call. -/
def runTx {ε α : Type} (σ : α) (r : Except ε α) : α :=
  match r with
  | .ok σ' => σ'
  | .error _ => σ

/-- A deposit or a withdrawal submitted to the stake ledger, with its
`block.timestamp` and the collaborator's verdict on the transfer. -/
inductive StakeOp where
  | deposit (user amount now : Nat) (ok : Bool)
  | withdrawal (user amount now : Nat) (ok : Bool)

/-- Execute one stake-ledger transaction; a revert leaves the state
unchanged. -/
def applyStakeOp (σ : StakingState) : StakeOp → StakingState
  | .deposit u a t ok => runTx σ (stake σ u a t ok)
  | .withdrawal u a t ok => runTx σ (withdraw σ u a t ok)

/-- Execute a sequence of stake-ledger transactions. -/
def execStakeOps (σ : StakingState) : List StakeOp → StakingState
  | [] => σ
  | op :: rest => execStakeOps (applyStakeOp σ op) rest

/-- The sum of the staked principal over all participants' records. -/
def sumPrincipals (l : List (Nat × StakeData)) : Nat :=
  l.foldr (fun p acc => p.2.amount + acc) 0

/-- A vesting-ledger transaction. -/
inductive VestOp where
  | create (caller scheduleId beneficiary totalAmount startTime cliffDuration
      vestingDuration now : Nat) (ok : Bool)
  | claimOne (scheduleId caller now : Nat) (ok : Bool)
  | claimEverything (caller now : Nat) (ok : Bool)
  | revoke (scheduleId caller now : Nat) (ok : Bool)

/-- Execute one vesting-ledger transaction; a revert leaves the state
unchanged. -/
def applyVestOp (σ : VestingState) : VestOp → VestingState
  | .create c id b amt st cd vd t ok => runTx σ (createVesting σ c id b amt st cd vd t ok)
  | .claimOne id c t ok => runTx σ (claim σ id c t ok)
  | .claimEverything c t ok => runTx σ (claimAll σ c t ok)
  | .revoke id c t ok => runTx σ (revokeVesting σ id c t ok)

/-- Execute a sequence of vesting-ledger transactions. -/
def execVestOps (σ : VestingState) : List VestOp → VestingState
  | [] => σ
  | op :: rest => execVestOps (applyVestOp σ op) rest

/-- `claimedAmount ≤ totalAmount` for every schedule slot of the mapping
(the empty default satisfies it trivially). -/
def claimInv (l : List (Nat × VSchedule)) : Prop :=
  ∀ scheduleId : Nat,
    (lookupSched l scheduleId).claimedAmount ≤ (lookupSched l scheduleId).totalAmount

/-- A freshly constructed staking contract (staking token 1, reward
token 2, 10% APR, no lock). -/
def stakeDemo0 : StakingState :=
  (constructStaking 1 2 (10 ^ 17) 0).getD
    { rewardRate := 0, lockPeriod := 0, totalStaked := 0,
      totalRewardsDistributed := 0, stakes := [], log := [] }

/-- Participant 1 stakes 1000 tokens at `t = 0`. -/
def stakeDemo1 : StakingState :=
  runTx stakeDemo0 (stake stakeDemo0 1 (1000 * 10 ^ 18) 0 true)

/-- Participant 1 stakes another 1000 tokens one year later, which
settles one year of reward (100 tokens) into `rewardDebt`. -/
def stakeDemo2 : StakingState :=
  runTx stakeDemo1 (stake stakeDemo1 1 (1000 * 10 ^ 18) SECONDS_PER_YEAR true)

/-- Participant 1 claims rewards at `t = 2` years. -/
def stakeDemo3 : StakingState :=
  runTx stakeDemo2 (claimRewards stakeDemo2 1 (2 * SECONDS_PER_YEAR) true)

/-- A freshly constructed vesting contract (token 1, owner 9). -/
def vestDemo0 : VestingState :=
  (constructVesting 1 9).getD
    { owner := 0, schedules := [], beneficiarySchedules := [],
      vestingScheduleCount := 0, totalVestedAmount := 0,
      totalClaimedAmount := 0, log := [] }

/-- Owner 9 creates schedule 42 for beneficiary 1: 10000 tokens, start
100, no cliff, duration 1000. -/
def vestDemo1 : VestingState :=
  runTx vestDemo0 (createVesting vestDemo0 9 42 1 10000 100 0 1000 0 true)

/-- Owner 9 revokes schedule 42 at `t = 600`, when 5000 tokens are vested
and none are claimed. -/
def vestDemo2 : VestingState :=
  runTx vestDemo1 (revokeVesting vestDemo1 42 9 600 true)

/-- A small staking state used to instantiate error-path theorems:
participant 1 has principal 3, locked until time 100. -/
def stakeLockedBase : StakingState :=
  { rewardRate := 10 ^ 17, lockPeriod := 50, totalStaked := 3,
    totalRewardsDistributed := 0, stakes := [(1, ⟨3, 0, 0, 100⟩)], log := [] }

/-- A small vesting state used to instantiate error-path theorems:
schedule 7 grants 1000 tokens to beneficiary 1, start 0, no cliff,
duration 100. -/
def vestBase : VestingState :=
  { owner := 9, schedules := [(7, ⟨1, 1000, 0, 0, 0, 100, false⟩)],
    beneficiarySchedules := [(1, [7])], vestingScheduleCount := 1,
    totalVestedAmount := 1000, totalClaimedAmount := 0, log := [] }

/-- The vested amount never exceeds `totalAmount`. -/
theorem getVestedAmountS_le_total (s : VSchedule) (now : Nat) :
    getVestedAmountS s now ≤ s.totalAmount := by
  unfold getVestedAmountS
  split
  · exact Nat.zero_le _
  split
  · exact Nat.zero_le _
  split
  · exact Nat.zero_le _
  split
  · exact Nat.le_refl _
  · rename_i h1 h2 h3 h4
    have hd : 0 < s.vestingDuration := by omega
    calc s.totalAmount * (now - s.startTime) / s.vestingDuration
        ≤ s.totalAmount * s.vestingDuration / s.vestingDuration := by
          exact Nat.div_le_div_right (Nat.mul_le_mul_left _ (by omega))
      _ = s.totalAmount := Nat.mul_div_cancel _ hd

/-- The vested amount is monotone non-decreasing in the current time. -/
theorem getVestedAmountS_mono (s : VSchedule) {t₁ t₂ : Nat} (h : t₁ ≤ t₂) :
    getVestedAmountS s t₁ ≤ getVestedAmountS s t₂ := by
  unfold getVestedAmountS
  split
  · simp
  rename_i hb
  by_cases h1 : t₁ < s.startTime
  · simp [h1]
  by_cases h2 : t₁ < s.startTime + s.cliffDuration
  · simp [h1, h2]
  have h1' : ¬ t₂ < s.startTime := by omega
  have h2' : ¬ t₂ < s.startTime + s.cliffDuration := by omega
  simp only [if_neg h1, if_neg h2, if_neg h1', if_neg h2']
  by_cases h3 : s.vestingDuration ≤ t₁ - s.startTime
  · have h3' : s.vestingDuration ≤ t₂ - s.startTime := by omega
    simp [h3, h3']
  · simp only [if_neg h3]
    by_cases h4 : s.vestingDuration ≤ t₂ - s.startTime
    · simp only [if_pos h4]
      exact getVestedAmountS_le_total s t₁ |>.trans_eq' (by
        unfold getVestedAmountS
        simp [hb, h1, h2, h3])
    · simp only [if_neg h4]
      exact Nat.div_le_div_right (Nat.mul_le_mul_left _ (by omega))

/-- C3: for an existing schedule (nonzero beneficiary, with the creation
invariants `0 < vestingDuration` and `cliffDuration ≤ vestingDuration`),
`getVestedAmount` returns 0 before `startTime` or before the cliff,
returns `totalAmount` once `now - startTime ≥ vestingDuration`, and
otherwise past the cliff returns `totalAmount * (now - startTime) /
vestingDuration` — elapsed time counted from `startTime`, not from the
cliff, so at the cliff boundary the value is the linear formula's value
there. -/
theorem vestedAmount_cases (s : VSchedule) (now : Nat)
    (hb : s.beneficiary ≠ 0) (hd : 0 < s.vestingDuration)
    (hcd : s.cliffDuration ≤ s.vestingDuration) :
    ((now < s.startTime ∨ now < s.startTime + s.cliffDuration) →
      getVestedAmountS s now = 0) ∧
    (s.vestingDuration ≤ now - s.startTime →
      getVestedAmountS s now = s.totalAmount) ∧
    (s.startTime + s.cliffDuration ≤ now → now - s.startTime < s.vestingDuration →
      getVestedAmountS s now =
        s.totalAmount * (now - s.startTime) / s.vestingDuration) := by
  refine ⟨?_, ?_, ?_⟩
  · intro h
    have hcliff : now < s.startTime + s.cliffDuration := by
      rcases h with h | h <;> omega
    by_cases hs : now < s.startTime
    · simp [getVestedAmountS, hs]
    · simp [getVestedAmountS, hs, hcliff]
  · intro h
    have hs : s.startTime ≤ now := by omega
    have hc : ¬ now < s.startTime + s.cliffDuration := by omega
    unfold getVestedAmountS
    simp [hb, Nat.not_lt.mpr hs, hc, h]
  · intro h1 h2
    have hs : ¬ now < s.startTime := by omega
    have hc : ¬ now < s.startTime + s.cliffDuration := by omega
    unfold getVestedAmountS
    simp [hb, hs, hc, Nat.not_le.mpr h2]

/-- Witness for `vestedAmount_cases` at a concrete schedule
(`totalAmount = 10000`, `cliffDuration = 100`, `vestingDuration = 1000`,
`startTime = 50`) and `now = 150`, the cliff boundary. -/
theorem vestedAmount_cases_witness :
    (((150 : Nat) < 50 ∨ (150 : Nat) < 50 + 100) →
      getVestedAmountS ⟨1, 10000, 0, 50, 100, 1000, false⟩ 150 = 0) ∧
    ((1000 : Nat) ≤ 150 - 50 →
      getVestedAmountS ⟨1, 10000, 0, 50, 100, 1000, false⟩ 150 = 10000) ∧
    ((50 : Nat) + 100 ≤ 150 → 150 - 50 < 1000 →
      getVestedAmountS ⟨1, 10000, 0, 50, 100, 1000, false⟩ 150 =
        10000 * (150 - 50) / 1000) :=
  vestedAmount_cases ⟨1, 10000, 0, 50, 100, 1000, false⟩ 150
    (by decide) (by decide) (by decide)

/-- C4: for a fixed schedule satisfying the creation invariants,
`getVestedAmount` is monotone non-decreasing in time, equals
`totalAmount` for every time `now ≥ startTime + vestingDuration`, and
equals 0 for every time `now < startTime + cliffDuration`. -/
theorem vestedAmount_mono_saturate_cliff (s : VSchedule)
    (hb : s.beneficiary ≠ 0) (hd : 0 < s.vestingDuration)
    (hcd : s.cliffDuration ≤ s.vestingDuration) :
    (∀ t₁ t₂ : Nat, t₁ ≤ t₂ →
      getVestedAmountS s t₁ ≤ getVestedAmountS s t₂) ∧
    (∀ now : Nat, s.startTime + s.vestingDuration ≤ now →
      getVestedAmountS s now = s.totalAmount) ∧
    (∀ now : Nat, now < s.startTime + s.cliffDuration →
      getVestedAmountS s now = 0) := by
  refine ⟨fun t₁ t₂ h => getVestedAmountS_mono s h, ?_, ?_⟩
  · intro now h
    exact (vestedAmount_cases s now hb hd hcd).2.1 (by omega)
  · intro now h
    exact (vestedAmount_cases s now hb hd hcd).1 (Or.inr h)

/-- Witness for `vestedAmount_mono_saturate_cliff` at the same concrete
schedule, instantiated at times 120 ≤ 700, at 1050 (past the end) and at
149 (inside the cliff). -/
theorem vestedAmount_mono_saturate_cliff_witness :
    getVestedAmountS ⟨1, 10000, 0, 50, 100, 1000, false⟩ 120 ≤
      getVestedAmountS ⟨1, 10000, 0, 50, 100, 1000, false⟩ 700 ∧
    getVestedAmountS ⟨1, 10000, 0, 50, 100, 1000, false⟩ 1050 = 10000 ∧
    getVestedAmountS ⟨1, 10000, 0, 50, 100, 1000, false⟩ 149 = 0 := by
  have h := vestedAmount_mono_saturate_cliff ⟨1, 10000, 0, 50, 100, 1000, false⟩
    (by decide) (by decide) (by decide)
  exact ⟨h.1 120 700 (by decide), h.2.1 1050 (by decide), h.2.2 149 (by decide)⟩

/-- Lookup after a store: the stored slot for the written key, the old
value elsewhere. -/
theorem lookupStake_storeStake (l : List (Nat × StakeData)) (a q : Nat)
    (d : StakeData) :
    lookupStake (storeStake l a d) q = if q = a then d else lookupStake l q := by
  induction l with
  | nil => simp [storeStake, lookupStake]
  | cons hd tl ih =>
    obtain ⟨b, e⟩ := hd
    by_cases hab : a = b
    · subst hab
      simp only [storeStake, if_pos rfl, lookupStake]
      by_cases hq : q = a <;> simp [hq]
    · simp only [storeStake, if_neg hab, lookupStake, ih]
      by_cases hqb : q = b
      · subst hqb
        simp [Ne.symm hab]
      · simp [hqb]

/-- Storing a record moves the principal sum by the difference between
the new and the previously stored amount. -/
theorem sumPrincipals_storeStake (l : List (Nat × StakeData)) (a : Nat)
    (d : StakeData) :
    sumPrincipals (storeStake l a d) + (lookupStake l a).amount =
      sumPrincipals l + d.amount := by
  induction l with
  | nil => simp [storeStake, lookupStake, sumPrincipals, StakeData.empty]
  | cons hd tl ih =>
    obtain ⟨b, e⟩ := hd
    by_cases hab : a = b
    · subst hab
      simp [storeStake, lookupStake, sumPrincipals]
      omega
    · simp [storeStake, lookupStake, sumPrincipals, hab] at ih ⊢
      omega

/-- Each participant's principal is at most the principal sum. -/
theorem lookupStake_amount_le_sum (l : List (Nat × StakeData)) (a : Nat) :
    (lookupStake l a).amount ≤ sumPrincipals l := by
  induction l with
  | nil => simp [lookupStake, sumPrincipals, StakeData.empty]
  | cons hd tl ih =>
    obtain ⟨b, e⟩ := hd
    simp only [lookupStake, sumPrincipals, List.foldr] at ih ⊢
    by_cases hab : a = b
    · simp [hab]
    · simp only [if_neg hab]
      omega

/-- `_updateRewards` never touches `totalStaked`. -/
theorem updateRewards_totalStaked (σ : StakingState) (user now : Nat) :
    (updateRewards σ user now).totalStaked = σ.totalStaked := by
  simp only [updateRewards]
  split <;> rfl

/-- `_updateRewards` never changes the principal sum. -/
theorem updateRewards_sum (σ : StakingState) (user now : Nat) :
    sumPrincipals (updateRewards σ user now).stakes = sumPrincipals σ.stakes := by
  simp only [updateRewards]
  split
  · have h := sumPrincipals_storeStake σ.stakes user
      { lookupStake σ.stakes user with
        rewardDebt := calculateRewardDebt σ user now, lastUpdateTime := now }
    simp only at h ⊢
    omega
  · rfl

/-- `_updateRewards` never changes a stored principal. -/
theorem updateRewards_lookup_amount (σ : StakingState) (user now q : Nat) :
    (lookupStake (updateRewards σ user now).stakes q).amount =
      (lookupStake σ.stakes q).amount := by
  simp only [updateRewards]
  split
  · rw [lookupStake_storeStake]
    by_cases hq : q = user
    · subst hq
      simp
    · simp [hq]
  · rfl

/-- Principal sum after a store, in subtraction form. -/
theorem sumPrincipals_storeStake_eq (l : List (Nat × StakeData)) (a : Nat)
    (d : StakeData) :
    sumPrincipals (storeStake l a d) =
      sumPrincipals l - (lookupStake l a).amount + d.amount := by
  have h1 := sumPrincipals_storeStake l a d
  have h2 := lookupStake_amount_le_sum l a
  omega

/-- A successful `stake` adds the amount both to the participant's
principal sum and to `totalStaked`. -/
theorem stake_ok_sum (σ σ' : StakingState) (u a t : Nat) (ok : Bool)
    (h : stake σ u a t ok = .ok σ') :
    sumPrincipals σ'.stakes = sumPrincipals σ.stakes + a ∧
    σ'.totalStaked = σ.totalStaked + a := by
  simp only [stake] at h
  split_ifs at h
  any_goals simp at h
  all_goals
    subst h
    refine ⟨?_, ?_⟩
  all_goals dsimp only
  all_goals
    first
      | rw [updateRewards_totalStaked]
      | (rw [sumPrincipals_storeStake_eq]
         dsimp only
         have hle := lookupStake_amount_le_sum (updateRewards σ u t).stakes u
         have hu := updateRewards_sum σ u t
         omega)

/-- A successful `withdraw` removes the amount both from the
participant's principal sum and from `totalStaked`, and can only happen
when the amount was covered by the principal. -/
theorem withdraw_ok_sum (σ σ' : StakingState) (u a t : Nat) (ok : Bool)
    (h : withdraw σ u a t ok = .ok σ') :
    a ≤ (lookupStake σ.stakes u).amount ∧
    sumPrincipals σ'.stakes = sumPrincipals σ.stakes - a ∧
    σ'.totalStaked = σ.totalStaked - a := by
  simp only [withdraw] at h
  split_ifs at h
  any_goals simp at h
  subst h
  refine ⟨by omega, ?_, ?_⟩
  · dsimp only
    rw [sumPrincipals_storeStake_eq]
    dsimp only
    have hl := updateRewards_lookup_amount σ u t u
    have hle := lookupStake_amount_le_sum σ.stakes u
    have hle2 := lookupStake_amount_le_sum (updateRewards σ u t).stakes u
    have hu := updateRewards_sum σ u t
    omega
  · dsimp only
    rw [updateRewards_totalStaked]

/-- One stake-ledger transaction preserves the equality between
`totalStaked` and the principal sum. -/
theorem applyStakeOp_inv (σ : StakingState) (op : StakeOp)
    (h : sumPrincipals σ.stakes = σ.totalStaked) :
    sumPrincipals (applyStakeOp σ op).stakes = (applyStakeOp σ op).totalStaked := by
  cases op with
  | deposit u a t ok =>
    simp only [applyStakeOp]
    cases hres : stake σ u a t ok with
    | ok σ' =>
      simp only [runTx]
      have hs := stake_ok_sum σ σ' u a t ok hres
      omega
    | error e => simpa only [runTx] using h
  | withdrawal u a t ok =>
    simp only [applyStakeOp]
    cases hres : withdraw σ u a t ok with
    | ok σ' =>
      simp only [runTx]
      have hs := withdraw_ok_sum σ σ' u a t ok hres
      omega
    | error e => simpa only [runTx] using h

/-- A transaction sequence preserves the equality between `totalStaked`
and the principal sum. -/
theorem execStakeOps_inv (ops : List StakeOp) (σ : StakingState)
    (h : sumPrincipals σ.stakes = σ.totalStaked) :
    sumPrincipals (execStakeOps σ ops).stakes = (execStakeOps σ ops).totalStaked := by
  induction ops generalizing σ with
  | nil => exact h
  | cons op rest ih =>
    simp only [execStakeOps]
    exact ih _ (applyStakeOp_inv σ op h)

/-- C5: starting from a freshly constructed staking contract, after every
sequence of stake (deposit) and withdraw transactions — reverted ones
leaving the state unchanged — `totalStaked` equals the sum of all
participants' staked principal. -/
theorem totalStaked_eq_sumPrincipals (st rt rate lock : Nat)
    (σ₀ : StakingState) (h : constructStaking st rt rate lock = some σ₀)
    (ops : List StakeOp) :
    sumPrincipals (execStakeOps σ₀ ops).stakes =
      (execStakeOps σ₀ ops).totalStaked := by
  have h0 : sumPrincipals σ₀.stakes = σ₀.totalStaked := by
    simp only [constructStaking] at h
    split_ifs at h
    any_goals simp at h
    subst h
    rfl
  exact execStakeOps_inv ops σ₀ h0

/-- Witness for `totalStaked_eq_sumPrincipals`: a concrete deposit of 5
followed by a withdrawal of 2 from the demo contract. -/
theorem totalStaked_eq_sumPrincipals_witness :
    sumPrincipals (execStakeOps stakeDemo0
      [.deposit 1 5 0 true, .withdrawal 1 2 10 true]).stakes =
    (execStakeOps stakeDemo0
      [.deposit 1 5 0 true, .withdrawal 1 2 10 true]).totalStaked :=
  totalStaked_eq_sumPrincipals 1 2 (10 ^ 17) 0 stakeDemo0 rfl
    [.deposit 1 5 0 true, .withdrawal 1 2 10 true]

/-- C9: splitting an accrual interval at any midpoint changes the total
reward only by floor-division rounding: the split total never exceeds the
single-shot value, and falls short by at most one unit per split point. -/
theorem accrual_split_bounds (p r t0 t1 t2 : Nat)
    (h01 : t0 ≤ t1) (h12 : t1 ≤ t2) :
    accrualReward p r (t1 - t0) + accrualReward p r (t2 - t1) ≤
      accrualReward p r (t2 - t0) ∧
    accrualReward p r (t2 - t0) ≤
      accrualReward p r (t1 - t0) + accrualReward p r (t2 - t1) + 1 := by
  have hD : 0 < PRECISION * SECONDS_PER_YEAR := by
    simp [PRECISION, SECONDS_PER_YEAR]
  have hsplit : p * r * (t2 - t0) = p * r * (t1 - t0) + p * r * (t2 - t1) := by
    rw [← Nat.mul_add]
    congr 1
    omega
  unfold accrualReward
  rw [hsplit, Nat.add_div hD]
  split <;> omega

/-- Witness for `accrual_split_bounds` at `p = 1000·10^18` tokens,
`r = 10% APR`, splitting a two-year interval at the year boundary. -/
theorem accrual_split_bounds_witness :
    accrualReward (1000 * 10 ^ 18) (10 ^ 17) (SECONDS_PER_YEAR - 0) +
      accrualReward (1000 * 10 ^ 18) (10 ^ 17)
        (2 * SECONDS_PER_YEAR - SECONDS_PER_YEAR) ≤
      accrualReward (1000 * 10 ^ 18) (10 ^ 17) (2 * SECONDS_PER_YEAR - 0) ∧
    accrualReward (1000 * 10 ^ 18) (10 ^ 17) (2 * SECONDS_PER_YEAR - 0) ≤
      accrualReward (1000 * 10 ^ 18) (10 ^ 17) (SECONDS_PER_YEAR - 0) +
        accrualReward (1000 * 10 ^ 18) (10 ^ 17)
          (2 * SECONDS_PER_YEAR - SECONDS_PER_YEAR) + 1 :=
  accrual_split_bounds (1000 * 10 ^ 18) (10 ^ 17) 0 SECONDS_PER_YEAR
    (2 * SECONDS_PER_YEAR) (Nat.zero_le _) (by omega)

/-- C10: the constructor accepts any initial reward rate — including
rates strictly above `PRECISION` (100%) — storing it verbatim, as long as
both token addresses are nonzero; the `InvalidRewardRate` ceiling is
enforced only by `setRewardRate`. -/
theorem constructor_rate_unchecked (st rt rate lock : Nat)
    (hst : st ≠ 0) (hrt : rt ≠ 0) :
    (∃ σ : StakingState,
      constructStaking st rt rate lock = some σ ∧ σ.rewardRate = rate) ∧
    (∀ (σ : StakingState) (newRate : Nat), PRECISION < newRate →
      setRewardRate σ newRate = .error .invalidRewardRate) ∧
    (∀ (σ : StakingState) (newRate : Nat), newRate ≤ PRECISION →
      setRewardRate σ newRate = .ok { σ with rewardRate := newRate }) := by
  refine ⟨?_, ?_, ?_⟩
  · have hmk : constructStaking st rt rate lock = some
        (StakingState.mk rate lock 0 0 [] []) := by
      simp [constructStaking, hst, hrt]
    exact ⟨_, hmk, rfl⟩
  · intro σ newRate hgt
    simp [setRewardRate, hgt]
  · intro σ newRate hle
    simp [setRewardRate, Nat.not_lt.mpr hle]

/-- Witness for `constructor_rate_unchecked` with an initial rate of
`2·10^18` = 200%, twice the ceiling `setRewardRate` would allow. -/
theorem constructor_rate_unchecked_witness :
    (∃ σ : StakingState,
      constructStaking 1 2 (2 * 10 ^ 18) 0 = some σ ∧
      σ.rewardRate = 2 * 10 ^ 18) ∧
    (∀ (σ : StakingState) (newRate : Nat), PRECISION < newRate →
      setRewardRate σ newRate = .error .invalidRewardRate) ∧
    (∀ (σ : StakingState) (newRate : Nat), newRate ≤ PRECISION →
      setRewardRate σ newRate = .ok { σ with rewardRate := newRate }) :=
  constructor_rate_unchecked 1 2 (2 * 10 ^ 18) 0 (by decide) (by decide)

/-- C8: `withdraw` fails with `ZeroAmount` on a zero amount, with
`InsufficientBalance` when the amount exceeds the principal, and — when
those two checks pass — with `TokensLocked(lockUntil)` inside the lock
window; each failure reverts, leaving the whole state (in particular the
participant's record and `totalStaked`) unchanged. -/
theorem withdraw_error_cases (σ : StakingState) (user amount now : Nat)
    (ok : Bool) :
    (amount = 0 →
      withdraw σ user amount now ok = .error .zeroAmount ∧
      runTx σ (withdraw σ user amount now ok) = σ) ∧
    ((lookupStake σ.stakes user).amount < amount →
      withdraw σ user amount now ok = .error .insufficientBalance ∧
      runTx σ (withdraw σ user amount now ok) = σ) ∧
    (amount ≠ 0 → amount ≤ (lookupStake σ.stakes user).amount →
      0 < (lookupStake σ.stakes user).lockUntil →
      now < (lookupStake σ.stakes user).lockUntil →
      withdraw σ user amount now ok =
        .error (.tokensLocked (lookupStake σ.stakes user).lockUntil) ∧
      runTx σ (withdraw σ user amount now ok) = σ) := by
  refine ⟨?_, ?_, ?_⟩
  · intro h0
    have he : withdraw σ user amount now ok = .error .zeroAmount := by
      simp [withdraw, h0]
    exact ⟨he, by rw [he]; rfl⟩
  · intro hgt
    have h0 : amount ≠ 0 := by omega
    have he : withdraw σ user amount now ok = .error .insufficientBalance := by
      simp [withdraw, h0, hgt]
    exact ⟨he, by rw [he]; rfl⟩
  · intro h0 hle hl ht
    have he : withdraw σ user amount now ok =
        .error (.tokensLocked (lookupStake σ.stakes user).lockUntil) := by
      simp [withdraw, h0, Nat.not_lt.mpr hle, hl, ht]
    exact ⟨he, by rw [he]; rfl⟩

/-- Witness for `withdraw_error_cases` on a state where participant 1 has
principal 3 locked until time 100, at time 50: a zero withdrawal, an
excessive withdrawal of 5, and a locked withdrawal of 2. -/
theorem withdraw_error_cases_witness :
    (withdraw stakeLockedBase 1 0 50 true = .error .zeroAmount ∧
      runTx stakeLockedBase (withdraw stakeLockedBase 1 0 50 true) =
        stakeLockedBase) ∧
    (withdraw stakeLockedBase 1 5 50 true = .error .insufficientBalance ∧
      runTx stakeLockedBase (withdraw stakeLockedBase 1 5 50 true) =
        stakeLockedBase) ∧
    (withdraw stakeLockedBase 1 2 50 true = .error (.tokensLocked 100) ∧
      runTx stakeLockedBase (withdraw stakeLockedBase 1 2 50 true) =
        stakeLockedBase) := by
  refine ⟨(withdraw_error_cases stakeLockedBase 1 0 50 true).1 rfl, ?_, ?_⟩
  · exact (withdraw_error_cases stakeLockedBase 1 5 50 true).2.1 (by decide)
  · have h := (withdraw_error_cases stakeLockedBase 1 2 50 true).2.2
      (by decide) (by decide) (by decide) (by decide)
    simpa using h

/-- C1 (failing input): participant 1 stakes 1000 tokens at `t = 0` and
again at `t = 1` year, which settles 100 tokens of reward into
`rewardDebt`; claiming at `t = 2` years then transfers only the 200
tokens accrued since the second stake — the settled `rewardDebt` is
neither paid out nor cleared, but grown to 300 tokens, and
`totalRewardsDistributed` records only the 200. -/
theorem claimRewards_drops_settled_debt :
    (lookupStake stakeDemo2.stakes 1).rewardDebt = 100 * 10 ^ 18 ∧
    calculatePendingReward stakeDemo2 1 (2 * SECONDS_PER_YEAR) = 200 * 10 ^ 18 ∧
    stakeDemo3.totalRewardsDistributed = 200 * 10 ^ 18 ∧
    (lookupStake stakeDemo3.stakes 1).rewardDebt = 300 * 10 ^ 18 ∧
    (lookupStake stakeDemo3.stakes 1).lastUpdateTime = 2 * SECONDS_PER_YEAR ∧
    stakeDemo3.log.getLast? = some (TokenMove.mk addrThis 1 (200 * 10 ^ 18)) := by
  refine ⟨?_, ?_, ?_, ?_, ?_, ?_⟩ <;> rfl

/-- Marking a schedule revoked does not change its vested amount (the
formula never reads the flag). -/
theorem getVestedAmountS_revoked (s : VSchedule) (b : Bool) (now : Nat) :
    getVestedAmountS { s with revoked := b } now = getVestedAmountS s now := rfl

/-- C7: whenever an operation of either ledger reaches its token movement
and the `SafeERC20` collaborator declines it, the operation reports
`transferFailed` and the reverted transaction leaves the entire state
exactly as it was:
stake, withdraw and claimRewards on the stake ledger, and createVesting,
claim, claimAll and revokeVesting on the vesting ledger. -/
theorem transfer_failure_atomicity :
    (∀ (σ : StakingState) (u a t : Nat), a ≠ 0 →
      stake σ u a t false = .error .transferFailed ∧
      runTx σ (stake σ u a t false) = σ) ∧
    (∀ (σ : StakingState) (u a t : Nat), a ≠ 0 →
      a ≤ (lookupStake σ.stakes u).amount →
      ¬(0 < (lookupStake σ.stakes u).lockUntil ∧
        t < (lookupStake σ.stakes u).lockUntil) →
      withdraw σ u a t false = .error .transferFailed ∧
      runTx σ (withdraw σ u a t false) = σ) ∧
    (∀ (σ : StakingState) (u t : Nat), (lookupStake σ.stakes u).amount ≠ 0 →
      0 < calculatePendingReward σ u t →
      claimRewards σ u t false = .error .transferFailed ∧
      runTx σ (claimRewards σ u t false) = σ) ∧
    (∀ (σ : VestingState) (id b amt st cd vd t : Nat), b ≠ 0 → amt ≠ 0 →
      vd ≠ 0 → cd ≤ vd → (lookupSched σ.schedules id).beneficiary = 0 →
      createVesting σ σ.owner id b amt st cd vd t false =
        .error .transferFailed ∧
      runTx σ (createVesting σ σ.owner id b amt st cd vd t false) = σ) ∧
    (∀ (σ : VestingState) (id t : Nat),
      (lookupSched σ.schedules id).beneficiary ≠ 0 →
      (lookupSched σ.schedules id).revoked = false →
      getClaimableAmountS (lookupSched σ.schedules id) t ≠ 0 →
      claim σ id (lookupSched σ.schedules id).beneficiary t false =
        .error .transferFailed ∧
      runTx σ (claim σ id (lookupSched σ.schedules id).beneficiary t false) = σ) ∧
    (∀ (σ : VestingState) (caller t : Nat),
      (claimAllLoop caller t (lookupBene σ.beneficiarySchedules caller)
        σ.schedules).2 ≠ 0 →
      claimAll σ caller t false = .error .transferFailed ∧
      runTx σ (claimAll σ caller t false) = σ) ∧
    (∀ (σ : VestingState) (id t : Nat),
      (lookupSched σ.schedules id).beneficiary ≠ 0 →
      (lookupSched σ.schedules id).revoked = false →
      0 < (lookupSched σ.schedules id).totalAmount -
        getVestedAmount σ id t →
      revokeVesting σ id σ.owner t false = .error .transferFailed ∧
      runTx σ (revokeVesting σ id σ.owner t false) = σ) := by
  refine ⟨?_, ?_, ?_, ?_, ?_, ?_, ?_⟩
  · intro σ u a t ha
    have he : stake σ u a t false = .error .transferFailed := by
      simp [stake, ha]
    exact ⟨he, by rw [he]; rfl⟩
  · intro σ u a t ha hle hlock
    have he : withdraw σ u a t false = .error .transferFailed := by
      simp [withdraw, ha, Nat.not_lt.mpr hle, hlock]
    exact ⟨he, by rw [he]; rfl⟩
  · intro σ u t ha hp
    have he : claimRewards σ u t false = .error .transferFailed := by
      simp [claimRewards, ha, hp]
    exact ⟨he, by rw [he]; rfl⟩
  · intro σ id b amt st cd vd t hb hamt hvd hcd hfresh
    have he : createVesting σ σ.owner id b amt st cd vd t false =
        .error .transferFailed := by
      simp [createVesting, hb, hamt, hvd, Nat.not_lt.mpr hcd, hfresh]
    exact ⟨he, by rw [he]; rfl⟩
  · intro σ id t hb hrev hcl
    have he : claim σ id (lookupSched σ.schedules id).beneficiary t false =
        .error .transferFailed := by
      simp [claim, hb, hrev, hcl]
    exact ⟨he, by rw [he]; rfl⟩
  · intro σ caller t htot
    have he : claimAll σ caller t false = .error .transferFailed := by
      simp [claimAll, htot]
    exact ⟨he, by rw [he]; rfl⟩
  · intro σ id t hb hrev hunv
    have he : revokeVesting σ id σ.owner t false = .error .transferFailed := by
      simp only [revokeVesting, getVestedAmount] at hunv ⊢
      simp [hb, hrev, getVestedAmountS_revoked, hunv]
    exact ⟨he, by rw [he]; rfl⟩

/-- Witness for `transfer_failure_atomicity`: each of the seven
operations instantiated on a small concrete state with a declining
collaborator. -/
theorem transfer_failure_atomicity_witness :
    (stake stakeLockedBase 1 7 200 false = .error .transferFailed ∧
      runTx stakeLockedBase (stake stakeLockedBase 1 7 200 false) =
        stakeLockedBase) ∧
    (withdraw stakeLockedBase 1 2 200 false = .error .transferFailed ∧
      runTx stakeLockedBase (withdraw stakeLockedBase 1 2 200 false) =
        stakeLockedBase) ∧
    (claimRewards stakeLockedBase 1 (10 * SECONDS_PER_YEAR) false =
        .error .transferFailed ∧
      runTx stakeLockedBase
        (claimRewards stakeLockedBase 1 (10 * SECONDS_PER_YEAR) false) =
        stakeLockedBase) ∧
    (createVesting vestBase vestBase.owner 8 1 500 0 10 50 0 false =
        .error .transferFailed ∧
      runTx vestBase (createVesting vestBase vestBase.owner 8 1 500 0 10 50 0
        false) = vestBase) ∧
    (claim vestBase 7 (lookupSched vestBase.schedules 7).beneficiary 50 false =
        .error .transferFailed ∧
      runTx vestBase (claim vestBase 7
        (lookupSched vestBase.schedules 7).beneficiary 50 false) = vestBase) ∧
    (claimAll vestBase 1 50 false = .error .transferFailed ∧
      runTx vestBase (claimAll vestBase 1 50 false) = vestBase) ∧
    (revokeVesting vestBase 7 vestBase.owner 50 false =
        .error .transferFailed ∧
      runTx vestBase (revokeVesting vestBase 7 vestBase.owner 50 false) =
        vestBase) := by
  refine ⟨transfer_failure_atomicity.1 stakeLockedBase 1 7 200 (by decide),
    transfer_failure_atomicity.2.1 stakeLockedBase 1 2 200 (by decide)
      (by decide) (by decide),
    transfer_failure_atomicity.2.2.1 stakeLockedBase 1 (10 * SECONDS_PER_YEAR)
      (by decide) (by decide),
    transfer_failure_atomicity.2.2.2.1 vestBase 8 1 500 0 10 50 0 (by decide)
      (by decide) (by decide) (by decide) (by decide),
    transfer_failure_atomicity.2.2.2.2.1 vestBase 7 50 (by decide) (by decide)
      (by decide),
    transfer_failure_atomicity.2.2.2.2.2.1 vestBase 1 50 (by decide),
    transfer_failure_atomicity.2.2.2.2.2.2 vestBase 7 50 (by decide)
      (by decide) (by decide)⟩

/-- Schedule lookup after a store: the stored slot for the written key,
the old value elsewhere. -/
theorem lookupSched_storeSched (l : List (Nat × VSchedule)) (a q : Nat)
    (d : VSchedule) :
    lookupSched (storeSched l a d) q = if q = a then d else lookupSched l q := by
  induction l with
  | nil => simp [storeSched, lookupSched]
  | cons hd tl ih =>
    obtain ⟨b, e⟩ := hd
    by_cases hab : a = b
    · subst hab
      simp only [storeSched, if_pos rfl, lookupSched]
      by_cases hq : q = a <;> simp [hq]
    · simp only [storeSched, if_neg hab, lookupSched, ih]
      by_cases hqb : q = b
      · subst hqb
        simp [Ne.symm hab]
      · simp [hqb]

/-- Claiming the claimable amount never pushes `claimedAmount` past
`totalAmount`. -/
theorem claimed_add_claimable_le (s : VSchedule) (now : Nat)
    (h : s.claimedAmount ≤ s.totalAmount) :
    s.claimedAmount + getClaimableAmountS s now ≤ s.totalAmount := by
  unfold getClaimableAmountS
  split
  · omega
  · have hv := getVestedAmountS_le_total s now
    dsimp only
    split <;> omega

/-- The `claimAll` loop preserves `claimedAmount ≤ totalAmount` across
the whole mapping. -/
theorem claimAllLoop_inv (caller now : Nat) (ids : List Nat)
    (scheds : List (Nat × VSchedule)) (h : claimInv scheds) :
    claimInv (claimAllLoop caller now ids scheds).1 := by
  induction ids generalizing scheds with
  | nil => exact h
  | cons id rest ih =>
    simp only [claimAllLoop]
    split
    · split
      · refine ih _ ?_
        intro q
        rw [lookupSched_storeSched]
        split
        · have := claimed_add_claimable_le (lookupSched scheds id) now (h id)
          dsimp only
          omega
        · exact h q
      · exact ih _ h
    · exact ih _ h

/-- One vesting-ledger transaction preserves
`claimedAmount ≤ totalAmount` for every schedule. -/
theorem applyVestOp_inv (σ : VestingState) (op : VestOp)
    (h : claimInv σ.schedules) : claimInv (applyVestOp σ op).schedules := by
  cases op with
  | create c id b amt st cd vd t ok =>
    simp only [applyVestOp]
    cases hres : createVesting σ c id b amt st cd vd t ok with
    | error e => simpa only [runTx] using h
    | ok σ' =>
      simp only [runTx]
      simp only [createVesting] at hres
      split_ifs at hres
      any_goals simp at hres
      all_goals
        subst hres
        intro q
        dsimp only
        rw [lookupSched_storeSched]
        split
        · simp
        · exact h q
  | claimOne id c t ok =>
    simp only [applyVestOp]
    cases hres : claim σ id c t ok with
    | error e => simpa only [runTx] using h
    | ok σ' =>
      simp only [runTx]
      simp only [claim] at hres
      split_ifs at hres
      any_goals simp at hres
      subst hres
      intro q
      dsimp only
      rw [lookupSched_storeSched]
      split
      · have := claimed_add_claimable_le (lookupSched σ.schedules id) t (h id)
        dsimp only
        omega
      · exact h q
  | claimEverything c t ok =>
    simp only [applyVestOp]
    cases hres : claimAll σ c t ok with
    | error e => simpa only [runTx] using h
    | ok σ' =>
      simp only [runTx]
      simp only [claimAll] at hres
      split_ifs at hres
      any_goals simp at hres
      subst hres
      intro q
      dsimp only
      exact claimAllLoop_inv c t (lookupBene σ.beneficiarySchedules c)
        σ.schedules h q
  | revoke id c t ok =>
    simp only [applyVestOp]
    cases hres : revokeVesting σ id c t ok with
    | error e => simpa only [runTx] using h
    | ok σ' =>
      simp only [runTx]
      simp only [revokeVesting] at hres
      split_ifs at hres
      any_goals simp at hres
      all_goals
        subst hres
        intro q
        dsimp only
        rw [lookupSched_storeSched]
        split
        · have := h id
          dsimp only
          omega
        · exact h q

/-- A transaction sequence preserves `claimedAmount ≤ totalAmount` for
every schedule. -/
theorem execVestOps_inv (ops : List VestOp) (σ : VestingState)
    (h : claimInv σ.schedules) : claimInv (execVestOps σ ops).schedules := by
  induction ops generalizing σ with
  | nil => exact h
  | cons op rest ih =>
    simp only [execVestOps]
    exact ih _ (applyVestOp_inv σ op h)

/-- C6: starting from a freshly constructed vesting contract, after every
sequence of createVesting / claim / claimAll / revokeVesting transactions
— reverted ones leaving the state unchanged — every schedule satisfies
`claimedAmount ≤ totalAmount`. -/
theorem claimed_le_total_invariant (vt ow : Nat) (σ₀ : VestingState)
    (h : constructVesting vt ow = some σ₀) (ops : List VestOp)
    (scheduleId : Nat) :
    (lookupSched (execVestOps σ₀ ops).schedules scheduleId).claimedAmount ≤
      (lookupSched (execVestOps σ₀ ops).schedules scheduleId).totalAmount := by
  have h0 : claimInv σ₀.schedules := by
    simp only [constructVesting] at h
    split_ifs at h
    any_goals simp at h
    subst h
    intro q
    simp [lookupSched, VSchedule.empty]
  exact execVestOps_inv ops σ₀ h0 scheduleId

/-- Witness for `claimed_le_total_invariant`: create schedule 42 and
claim from it halfway through the vesting period. -/
theorem claimed_le_total_invariant_witness :
    (lookupSched (execVestOps vestDemo0
      [.create 9 42 1 10000 100 0 1000 0 true,
       .claimOne 42 1 600 true]).schedules 42).claimedAmount ≤
    (lookupSched (execVestOps vestDemo0
      [.create 9 42 1 10000 100 0 1000 0 true,
       .claimOne 42 1 600 true]).schedules 42).totalAmount :=
  claimed_le_total_invariant 1 9 vestDemo0 rfl
    [.create 9 42 1 10000 100 0 1000 0 true, .claimOne 42 1 600 true] 42

/-- A revoked schedule has zero claimable amount. -/
theorem claimable_of_revoked (s : VSchedule) (now : Nat)
    (h : s.revoked = true) : getClaimableAmountS s now = 0 := by
  simp [getClaimableAmountS, h]

/-- `claim` on a known, revoked schedule fails with
`VestingAlreadyRevoked` for every caller. -/
theorem claim_revoked (σ : VestingState) (scheduleId c t : Nat) (ok : Bool)
    (hb : (lookupSched σ.schedules scheduleId).beneficiary ≠ 0)
    (hrev : (lookupSched σ.schedules scheduleId).revoked = true) :
    claim σ scheduleId c t ok = .error .vestingAlreadyRevoked := by
  simp [claim, hb, hrev]

/-- C2 counterexample: schedule 42 (10000 tokens, start 100, duration
1000) has 5000 tokens vested and none claimed at `t = 600`; after the
owner revokes it at `t = 600`, `getClaimableAmount` returns 0 — not the
5000 vested-but-unclaimed tokens — and the beneficiary's claim reverts
with `VestingAlreadyRevoked` instead of succeeding. -/
theorem revoked_schedule_counterexample :
    getVestedAmount vestDemo1 42 600 = 5000 ∧
    (lookupSched vestDemo1.schedules 42).claimedAmount = 0 ∧
    getClaimableAmount vestDemo2 42 600 = 0 ∧
    claim vestDemo2 42 1 600 true = .error .vestingAlreadyRevoked :=
  ⟨rfl, rfl, rfl, rfl⟩

/-- C2 (amended): revocation cancels the beneficiary's entitlement
entirely: afterwards `getClaimableAmount` returns 0 at every time and any
`claim` on the schedule fails with `VestingAlreadyRevoked`; the revoke
itself transfers exactly the unvested remainder
`totalAmount - getVestedAmount` at revocation time to the owner (and
nothing when that remainder is zero) — the vested-but-unclaimed amount is
not transferred anywhere and is no longer claimable. -/
theorem revoke_cancels_entitlement (σ σ' : VestingState)
    (scheduleId caller T : Nat) (ok : Bool)
    (h : revokeVesting σ scheduleId caller T ok = .ok σ') :
    (∀ t : Nat, getClaimableAmount σ' scheduleId t = 0) ∧
    (∀ (c t : Nat) (ok₂ : Bool),
      claim σ' scheduleId c t ok₂ = .error .vestingAlreadyRevoked) ∧
    (0 < (lookupSched σ.schedules scheduleId).totalAmount -
        getVestedAmount σ scheduleId T →
      σ'.log = σ.log ++ [TokenMove.mk addrThis σ.owner
        ((lookupSched σ.schedules scheduleId).totalAmount -
          getVestedAmount σ scheduleId T)]) ∧
    ((lookupSched σ.schedules scheduleId).totalAmount -
        getVestedAmount σ scheduleId T = 0 →
      σ'.log = σ.log) := by
  simp only [revokeVesting] at h
  split_ifs at h with h1 h2 h3 h4 h5
  any_goals simp at h
  all_goals subst h
  all_goals
    have hlook : ∀ d : VSchedule,
        lookupSched (storeSched σ.schedules scheduleId d) scheduleId = d := by
      intro d
      rw [lookupSched_storeSched]
      simp
    simp only [getVestedAmount, getVestedAmountS_revoked] at h4 ⊢
    refine ⟨?_, ?_, ?_, ?_⟩
  all_goals
    first
      | (intro t
         simp only [getClaimableAmount]
         try dsimp only
         rw [hlook]
         exact claimable_of_revoked _ t rfl)
      | (intro c t ok₂
         refine claim_revoked _ _ _ _ _ ?_ ?_
         · try dsimp only
           rw [hlook]
           exact h2
         · try dsimp only
           rw [hlook])
      | (intro hx
         first | omega | rfl | simp)

/-- Witness for `revoke_cancels_entitlement` on the concrete revocation
of schedule 42 at `t = 600` (5000 of 10000 vested): zero claimable at a
later time, a failing claim, and exactly the 5000 unvested tokens sent
to owner 9. -/
theorem revoke_cancels_entitlement_witness :
    getClaimableAmount vestDemo2 42 800 = 0 ∧
    claim vestDemo2 42 1 800 true = .error .vestingAlreadyRevoked ∧
    vestDemo2.log = vestDemo1.log ++ [TokenMove.mk addrThis vestDemo1.owner
      ((lookupSched vestDemo1.schedules 42).totalAmount -
        getVestedAmount vestDemo1 42 600)] := by
  have h := revoke_cancels_entitlement vestDemo1 vestDemo2 42 9 600 true rfl
  exact ⟨h.1 800, h.2.1 1 800 true, h.2.2.1 (by decide)⟩
